import Mathlib

/-!
Verification development for the batched ingestion-and-persistence pipeline
of the selfbot repository.

The embedded code lives in `internal/database` (the batching `Database`:
`New`, `processBatch`, `flushBatch`, `StoreMessage` and friends,
`GetDeletedMessages` / `GetEditedMessages` / `GetMentions`, `buildQuery`,
`Close`, and the `SimpleDatabase.isDuplicateError` helper) and in
`internal/bot/bot_simple.go` (`processMessage`, `processDeletedMessage`,
`processEditedMessage`, `processMention`, `isUserMentioned`).

Records are opaque payloads to the pipeline (Go passes
`[]interface{}` of pointers), so the queue/batch model is parametric in the
record type `α`.
-/

namespace Selfbot

/-- The four event kinds, one batch channel and one batch processor each
(`startBatchProcessors`). -/
inductive Kind
  | message
  | deleted
  | edited
  | mention
deriving DecidableEq

/-- Per-kind channel capacities, from `New`:
`messageBatch: make(chan *MessageData, 2000)`,
`deletedBatch: make(chan *DeletedMessageData, 1000)`,
`editedBatch: make(chan *EditedMessageData, 1000)`,
`mentionBatch: make(chan *MentionData, 500)`. -/
def kindCapacity : Kind → Nat
  | .message => 2000
  | .deleted => 1000
  | .edited => 1000
  | .mention => 500

/-- The batch-size threshold set in `New`: `batchSize: 1000`. -/
def dbBatchSize : Nat := 1000

/-- The flush interval set in `New`: `flushInterval: 5 * time.Second`. -/
def dbFlushIntervalSeconds : Nat := 5

/-- The receive timeout in the `default` branch of `processBatch`:
`case <-time.After(10 * time.Millisecond)`. -/
def pollTimeoutMillis : Nat := 10

/-- Outcome of the non-blocking channel send in the storage methods. -/
inductive EnqueueOutcome
  | queued
  | droppedFull
deriving DecidableEq

/-- Models the non-blocking send used by `StoreMessage`,
`StoreDeletedMessage`, `StoreEditedMessage` and `StoreMention`:

```
select {
case d.messageBatch <- msg:
default:
    log.Warn("Message batch channel full, dropping message")
}
```

A send on a buffered Go channel is ready exactly when occupancy is below
capacity; otherwise the `default` branch runs, the record is dropped and a
warning is logged. The function is total: it always returns one of the two
outcomes at once, it can never block the caller. -/
def chanSend {α : Type} (cap : Nat) (q : List α) (msg : α) : List α × EnqueueOutcome :=
  if q.length < cap then (q ++ [msg], .queued) else (q, .droppedFull)

/-- `Database.StoreMessage`, specialised to the message channel capacity. -/
def StoreMessage {α : Type} (q : List α) (msg : α) : List α × EnqueueOutcome :=
  chanSend (kindCapacity .message) q msg

/-- `Database.StoreDeletedMessage`, specialised to the deleted channel capacity. -/
def StoreDeletedMessage {α : Type} (q : List α) (msg : α) : List α × EnqueueOutcome :=
  chanSend (kindCapacity .deleted) q msg

/-- `Database.StoreEditedMessage`, specialised to the edited channel capacity. -/
def StoreEditedMessage {α : Type} (q : List α) (msg : α) : List α × EnqueueOutcome :=
  chanSend (kindCapacity .edited) q msg

/-- `Database.StoreMention`, specialised to the mention channel capacity. -/
def StoreMention {α : Type} (q : List α) (msg : α) : List α × EnqueueOutcome :=
  chanSend (kindCapacity .mention) q msg

/-- One operation on a bounded channel: a producer enqueue (the storage
methods) or a consumer receive (`msg := <-ch` in `processBatch`). -/
inductive QueueOp (α : Type)
  | enq (r : α)
  | deq
deriving DecidableEq

/-- Applies one channel operation. A receive takes the oldest element
(FIFO); receiving on an empty channel is a no-op here (in Go it blocks,
which changes no state). -/
def applyQueueOp {α : Type} (cap : Nat) (q : List α) : QueueOp α → List α
  | .enq r => (chanSend cap q r).1
  | .deq => q.tail

/-- Runs a sequence of channel operations from a starting state. -/
def runQueueOps {α : Type} (cap : Nat) (ops : List (QueueOp α)) (q : List α) : List α :=
  ops.foldl (applyQueueOp cap) q

/-- State of one batch processor (`processBatch` goroutine) together with
its input channel: the channel contents (FIFO), the in-memory `batch`
slice, the list of flush calls made so far (each entry is the batch handed
to `flushBatch`, in call order), and whether the goroutine has returned. -/
structure AccState (α : Type) where
  queue : List α
  batch : List α
  flushed : List (List α)
  stopped : Bool
deriving DecidableEq

/-- The events that drive one iteration of the `for { select ... } }` loop
in `processBatch`:
* `ctxDone` — `case <-d.ctx.Done()` (the cancellation signal from `Close`);
* `tick` — `case <-ticker.C` (the flush-interval ticker);
* `recv` — the `default` branch took a message from the channel
  (`case msg := <-ch`);
* `pollTimeout` — the `default` branch found no message for 10 ms
  (`case <-time.After(10 * time.Millisecond): continue`). -/
inductive AccEvent
  | ctxDone
  | tick
  | recv
  | pollTimeout
deriving DecidableEq

/-- Which events can fire at a state: `recv` needs a message in the
channel, while the 10 ms receive timeout fires exactly when the channel
stays empty; `ctxDone` and `tick` are driven by the environment (the
cancellation signal and the ticker). Nothing fires once the goroutine has
returned. -/
def enabled {α : Type} (e : AccEvent) (s : AccState α) : Bool :=
  if s.stopped then false
  else
    match e with
    | .ctxDone => true
    | .tick => true
    | .recv => !s.queue.isEmpty
    | .pollTimeout => s.queue.isEmpty

/-- One iteration of the `processBatch` loop, transcribed:

```
select {
case <-d.ctx.Done():
    if len(batch) > 0 { d.flushBatch(collectionName, batch) }
    return
case <-ticker.C:
    if len(batch) > 0 { d.flushBatch(collectionName, batch); batch = batch[:0] }
default:
    select {
    case msg := <-ch: batch = append(batch, msg)
    case <-time.After(10 * time.Millisecond): continue
    }
    if len(batch) >= d.batchSize { d.flushBatch(collectionName, batch); batch = batch[:0] }
}
```

Note that the `continue` on the 10 ms timeout skips the size check, and
that the size check runs immediately after the append, before the next
iteration can dequeue anything. -/
def processBatchStep {α : Type} (batchSize : Nat) (e : AccEvent) (s : AccState α) : AccState α :=
  if s.stopped then s
  else
    match e with
    | .ctxDone =>
        if s.batch.isEmpty then { s with stopped := true }
        else { s with batch := [], flushed := s.flushed ++ [s.batch], stopped := true }
    | .tick =>
        if s.batch.isEmpty then s
        else { s with batch := [], flushed := s.flushed ++ [s.batch] }
    | .recv =>
        match s.queue with
        | [] => s
        | r :: rest =>
            let b := s.batch ++ [r]
            if batchSize ≤ b.length then
              { s with queue := rest, batch := [], flushed := s.flushed ++ [b] }
            else
              { s with queue := rest, batch := b }
    | .pollTimeout => s

/-- The MongoDB duplicate-key error code checked by `flushBatch`
(`writeErr.Code != 11000`) and `isDuplicateError` (`writeErr.Code == 11000`). -/
def duplicateKeyCode : Nat := 11000

/-- One per-record rejection inside a `mongo.BulkWriteException`: the index
of the rejected document in the batch and the store error code. -/
structure WriteError where
  index : Nat
  code : Nat
deriving DecidableEq

/-- Result of the store round trip made by `collection.InsertMany(ctx,
batch, options.InsertMany().SetOrdered(false))`: full success, a bulk-write
exception carrying per-record rejections, or any other error (for example
connectivity failure). -/
inductive InsertManyResult
  | ok
  | bulkWriteException (writeErrors : List WriteError)
  | otherError
deriving DecidableEq

/-- Transcription of the counting loop in `flushBatch`:

```
nonDuplicates := 0
for _, writeErr := range bulkErr.WriteErrors {
    if writeErr.Code != 11000 { nonDuplicates++ }
}
```
-/
def nonDuplicates (errs : List WriteError) : Nat :=
  (errs.filter (fun w => !(w.code == duplicateKeyCode))).length

/-- The rejections `flushBatch` skips over, the ones with the duplicate-key
code 11000 (`writeErr.Code != 11000` is false). -/
def duplicates (errs : List WriteError) : Nat :=
  (errs.filter (fun w => w.code == duplicateKeyCode)).length

/-- `SimpleDatabase.isDuplicateError` from `internal/database` (the direct
store): true when some write error of the exception carries code 11000. -/
def isDuplicateError (errs : List WriteError) : Bool :=
  errs.any (fun w => w.code == duplicateKeyCode)

/-- Unordered-insert store semantics: with `SetOrdered(false)` one
record's rejection does not prevent insertion of the others, so exactly the
documents whose index carries a write error are rejected. -/
def insertedDocs {α : Type} (batch : List α) (errs : List WriteError) : List α :=
  (batch.enum.filter (fun p => !(errs.any (fun w => w.index == p.1)))).map Prod.snd

/-- Observable effect of one `flushBatch` call: the documents the store
accepted, the non-duplicate rejection count the code computes (and logs
when positive), the duplicate-key rejection count (skipped silently), the
error log emission, and the records handed back for a retry (`flushBatch`
returns nothing and never requeues, so this is always empty). -/
structure FlushOutcome (α : Type) where
  persisted : List α
  failedCount : Nat
  duplicateCount : Nat
  errorLogged : Bool
  requeued : List α
deriving DecidableEq

/-- `Database.flushBatch`, transcribed. An empty batch returns before
touching the store. On a `mongo.BulkWriteException` the code counts the
write errors whose code differs from 11000 and logs one error line only
when that count is positive; duplicate-key rejections are passed over. Any
other error is logged whole. In every case the function simply returns:
nothing is retried or re-enqueued. -/
def flushBatch {α : Type} (batch : List α) (res : InsertManyResult) : FlushOutcome α :=
  if batch.isEmpty then
    { persisted := [], failedCount := 0, duplicateCount := 0, errorLogged := false, requeued := [] }
  else
    match res with
    | .ok =>
        { persisted := batch, failedCount := 0, duplicateCount := 0,
          errorLogged := false, requeued := [] }
    | .bulkWriteException errs =>
        { persisted := insertedDocs batch errs,
          failedCount := nonDuplicates errs,
          duplicateCount := duplicates errs,
          errorLogged := decide (0 < nonDuplicates errs),
          requeued := [] }
    | .otherError =>
        { persisted := [], failedCount := 0, duplicateCount := 0,
          errorLogged := true, requeued := [] }

/-- Shutdown state of the whole batching `Database`: the four batch
processors and their channels, the MongoDB connection pool, and whether
the cancellation signal has been sent. -/
structure DatabaseState (α : Type) where
  msgAcc : AccState α
  delAcc : AccState α
  editAcc : AccState α
  mentionAcc : AccState α
  poolOpen : Bool
  cancelled : Bool
deriving DecidableEq

/-- The steps `Database.Close` performs, in order, one constructor per
statement of its body. `waitAllWithTimeout` is the shape of a bounded wait
(a `select` on the wait-group against a timer); the code contains no such
construct, its wait is the bare `d.wg.Wait()`. -/
inductive CloseAction
  | cancelSignal
  | waitAllUnbounded
  | waitAllWithTimeout (millis : Nat)
  | closeChannels
  | disconnectPool (timeoutSeconds : Nat)
deriving DecidableEq

/-- Line-by-line transcription of the body of `Database.Close`:
`d.cancel()`, then `d.wg.Wait()` (an unconditional wait for the four
processors, with no timeout), then the four `close(...)` calls, then
`d.client.Disconnect(ctx)` under a 5-second context. It returns only the
`Disconnect` error, no report. -/
def closeActions : List CloseAction :=
  [.cancelSignal, .waitAllUnbounded, .closeChannels, .disconnectPool 5]

/-- True exactly on the bounded-wait action shape, which `closeActions`
never contains. -/
def isBoundedWait : CloseAction → Bool
  | .waitAllWithTimeout _ => true
  | _ => false

/-- `Database.Close` as a state transformer: the cancellation is signalled,
each processor observes `ctx.Done()` at its next iteration and runs its
`ctxDone` branch (flush the in-memory batch if non-empty, return), the
unbounded `wg.Wait()` completes, and the connection pool is released
unconditionally. -/
def Close {α : Type} (d : DatabaseState α) : DatabaseState α :=
  { msgAcc := processBatchStep dbBatchSize .ctxDone d.msgAcc
    delAcc := processBatchStep dbBatchSize .ctxDone d.delAcc
    editAcc := processBatchStep dbBatchSize .ctxDone d.editAcc
    mentionAcc := processBatchStep dbBatchSize .ctxDone d.mentionAcc
    poolOpen := false
    cancelled := true }

/-! ## Read path: `buildQuery` and the three query methods -/

/-- `database.QueryFilter` (the fields `buildQuery` reads). -/
structure QueryFilter where
  userID : Option String
  channelID : Option String
  guildID : Option String
  targetID : Option String
  excludeUser : Option String
  timeAfter : Option Nat
  timeBefore : Option Nat
deriving DecidableEq

/-- A stored document carrying the bson fields `buildQuery` can constrain
together with the three per-collection timestamp fields the query methods
sort on (`deleted_at`, `edited_at`, `created_at`). -/
structure StoreDoc where
  user_id : String
  channel_id : String
  guild_id : String
  target_id : String
  created_at : Nat
  deleted_at : Nat
  edited_at : Nat
deriving DecidableEq

/-- `Database.buildQuery`, as the predicate the resulting bson query makes
the store test. A nil filter gives the empty query (matches everything).
`ExcludeUser` writes to the same `user_id` key the `UserID` branch wrote
to, so when both are set the `$ne` condition overwrites the equality.
The time range is always attached to `created_at` (the code hardcodes that
field). -/
def matchesQuery (f : Option QueryFilter) (d : StoreDoc) : Bool :=
  match f with
  | none => true
  | some f =>
      (match f.excludeUser with
       | some ex => !(d.user_id == ex)
       | none =>
         match f.userID with
         | some u => d.user_id == u
         | none => true)
      && (match f.channelID with
          | some c => d.channel_id == c
          | none => true)
      && (match f.guildID with
          | some g => d.guild_id == g
          | none => true)
      && (match f.targetID with
          | some t => d.target_id == t
          | none => true)
      && (match f.timeAfter with
          | some a => decide (a ≤ d.created_at)
          | none => true)
      && (match f.timeBefore with
          | some b => decide (d.created_at ≤ b)
          | none => true)

/-- Inserts a document into a list kept in descending key order. -/
def insertByDesc (key : StoreDoc → Nat) (x : StoreDoc) : List StoreDoc → List StoreDoc
  | [] => [x]
  | y :: ys => if key y ≤ key x then x :: y :: ys else y :: insertByDesc key x ys

/-- Sorts documents in descending key order (insertion sort). -/
def sortByDesc (key : StoreDoc → Nat) : List StoreDoc → List StoreDoc
  | [] => []
  | x :: xs => insertByDesc key x (sortByDesc key xs)

/-- Semantics of the store call the query methods make:
`collection.Find(ctx, query, opts)` with
`opts = options.Find().SetSort(bson.D{{field, -1}}).SetLimit(limit)` —
the matching documents of the collection, in descending order of the sort
field, truncated to `limit`. -/
def findSortDescLimit (key : StoreDoc → Nat) (f : Option QueryFilter) (limit : Nat)
    (coll : List StoreDoc) : List StoreDoc :=
  (sortByDesc key (coll.filter (matchesQuery f))).take limit

/-- `Database.GetDeletedMessages`: reads the `deleted_messages` collection,
sort `{deleted_at, -1}`, limited. -/
def GetDeletedMessages (f : Option QueryFilter) (limit : Nat) (coll : List StoreDoc) :
    List StoreDoc :=
  findSortDescLimit (fun d => d.deleted_at) f limit coll

/-- `Database.GetEditedMessages`: reads the `edited_messages` collection,
sort `{edited_at, -1}`, limited. -/
def GetEditedMessages (f : Option QueryFilter) (limit : Nat) (coll : List StoreDoc) :
    List StoreDoc :=
  findSortDescLimit (fun d => d.edited_at) f limit coll

/-- `Database.GetMentions`: reads the `mentions` collection, sort
`{created_at, -1}`, limited. -/
def GetMentions (f : Option QueryFilter) (limit : Nat) (coll : List StoreDoc) :
    List StoreDoc :=
  findSortDescLimit (fun d => d.created_at) f limit coll

/-! ## Event handlers of `internal/bot/bot_simple.go` -/

/-- A Discord user as the handlers read it: id, username, and the bot-account
flag. -/
structure DUser where
  id : String
  username : String
  bot : Bool
deriving DecidableEq

/-- The fields of a `discordgo.Message` the handlers read. `author` is
optional because the delete handler checks `m.Author == nil` itself (and
the `MessageCreate` handler returns before `processMessage` when the author
is nil). `attachments` holds the proxy URLs the code copies out.
`replyToOwn` stands for the session lookup in `isUserMentioned`: whether
the message is a reply whose referenced message was authored by this
account. -/
structure DMessage where
  id : String
  author : Option DUser
  content : String
  channelID : String
  attachments : List String
  mentions : List String
  replyToOwn : Bool
deriving DecidableEq

/-- `bot.SimpleChannelInfo`: the cached channel metadata `getChannelInfo`
resolves. -/
structure SimpleChannelInfo where
  name : String
  chanType : String
  isGroup : Bool
  guildID : String
  guildName : String
deriving DecidableEq

/-- `database.SimpleDeletedMessageData`: the document
`processDeletedMessage` builds and hands to `StoreDeletedMessage`.
Unset string fields keep the Go zero value (empty string). -/
structure SimpleDeletedMessageData where
  messageID : String
  userID : String
  username : String
  content : String
  deletedAt : Nat
  channelID : String
  channelName : String
  channelType : String
  isGroup : Bool
  attachments : List String
  guildID : String
  guildName : String
deriving DecidableEq

/-- `database.SimpleMessageData`: the document `processMessage` builds. -/
structure SimpleMessageData where
  id : String
  messageID : String
  userID : String
  username : String
  content : String
  createdAt : Nat
  channelID : String
  channelName : String
  channelType : String
  isGroup : Bool
  attachments : List String
  instanceID : String
  isSelf : Bool
  guildID : String
  guildName : String
deriving DecidableEq

/-- `database.SimpleEditedMessageData`: the document
`processEditedMessage` builds. -/
structure SimpleEditedMessageData where
  messageID : String
  userID : String
  username : String
  beforeContent : String
  afterContent : String
  beforeAttachments : List String
  afterAttachments : List String
  editedAt : Nat
  channelID : String
  channelName : String
  channelType : String
  isGroup : Bool
  guildID : String
  guildName : String
deriving DecidableEq

/-- `database.SimpleMentionData`: the document `processMention` builds. -/
structure SimpleMentionData where
  messageID : String
  authorID : String
  authorName : String
  content : String
  createdAt : Nat
  channelID : String
  channelName : String
  attachments : List String
  channelType : Nat
  isGroup : Bool
  targetID : String
  guildID : String
  guildName : String
deriving DecidableEq

/-- `SimpleBot.isUserMentioned`: false while the ready event has not filled
`b.userID`; otherwise a direct mention of the account, or a reply to one of
its messages (the session lookup, modelled by `m.replyToOwn`). -/
def isUserMentioned (userID : String) (m : DMessage) : Bool :=
  if userID == "" then false
  else m.mentions.contains userID || m.replyToOwn

/-- `SimpleBot.processDeletedMessage`, transcribed. Nil message, nil
author, a bot author, an unfilled own id, or an author equal to the own
account all return before anything is built; otherwise the
`SimpleDeletedMessageData` document is built (channel metadata only when
`getChannelInfo` returned, modelled by the `chInfo` argument), attachments
copied, and handed to `StoreDeletedMessage`. The result is the stored
document, `none` when the event is discarded. `now` models `time.Now()`. -/
def processDeletedMessage (userID : String) (now : Nat) (chInfo : Option SimpleChannelInfo)
    (m : Option DMessage) : Option SimpleDeletedMessageData :=
  match m with
  | none => none
  | some m =>
      match m.author with
      | none => none
      | some a =>
          if a.bot then none
          else if userID == "" || a.id == userID then none
          else
            let base : SimpleDeletedMessageData :=
              { messageID := m.id
                userID := a.id
                username := a.username
                content := m.content
                deletedAt := now
                channelID := m.channelID
                channelName := ""
                channelType := ""
                isGroup := false
                attachments := m.attachments
                guildID := ""
                guildName := "" }
            some (match chInfo with
              | some ci =>
                  { base with
                    channelName := ci.name
                    channelType := ci.chanType
                    isGroup := ci.isGroup
                    guildID := ci.guildID
                    guildName := ci.guildName }
              | none => base)

/-- `SimpleBot.processMention`, transcribed: builds the
`SimpleMentionData` document for `StoreMention` (channel type mapped to the
integer code: DMs 1, group 3, otherwise 0). -/
def processMention (userID : String) (now : Nat) (chInfo : Option SimpleChannelInfo)
    (a : DUser) (m : DMessage) : Option SimpleMentionData :=
  if userID == "" then none
  else
    let base : SimpleMentionData :=
      { messageID := m.id
        authorID := a.id
        authorName := a.username
        content := m.content
        createdAt := now
        channelID := m.channelID
        channelName := ""
        attachments := m.attachments
        channelType := 0
        isGroup := false
        targetID := userID
        guildID := ""
        guildName := "" }
    some (match chInfo with
      | some ci =>
          { base with
            channelName := ci.name
            guildID := ci.guildID
            guildName := ci.guildName
            isGroup := ci.isGroup
            channelType :=
              if ci.chanType == "DMs" then 1
              else if ci.chanType == "group" then 3
              else 0 }
      | none => base)

/-- `SimpleBot.processMessage`, transcribed. A bot author or an unfilled
own id discards the event. Otherwise the `SimpleMessageData` document is
built and stored, and a mention document is additionally stored when the
account is mentioned and the author is someone else. The pair is (stored
message document, stored mention document). The nil-author case is guarded
by the `MessageCreate` handler before `processMessage` is spawned. -/
def processMessage (userID : String) (now : Nat) (chInfo : Option SimpleChannelInfo)
    (m : DMessage) : Option SimpleMessageData × Option SimpleMentionData :=
  match m.author with
  | none => (none, none)
  | some a =>
      if a.bot then (none, none)
      else if userID == "" then (none, none)
      else
        let base : SimpleMessageData :=
          { id := m.id
            messageID := m.id
            userID := a.id
            username := a.username
            content := m.content
            createdAt := now
            channelID := m.channelID
            channelName := ""
            channelType := ""
            isGroup := false
            attachments := m.attachments
            instanceID := userID
            isSelf := a.id == userID
            guildID := ""
            guildName := "" }
        let msgData : SimpleMessageData :=
          match chInfo with
          | some ci =>
              { base with
                channelName := ci.name
                channelType := ci.chanType
                isGroup := ci.isGroup
                guildID := ci.guildID
                guildName := ci.guildName }
          | none => base
        let mention :=
          if isUserMentioned userID m && !(a.id == userID) then
            processMention userID now chInfo a m
          else none
        (some msgData, mention)

/-- `SimpleBot.processEditedMessage`, transcribed. Nil before/after, nil
author, bot author, unfilled own id, own-account author, or unchanged
content all discard the event; otherwise the `SimpleEditedMessageData`
document is built and stored. -/
def processEditedMessage (userID : String) (now : Nat) (chInfo : Option SimpleChannelInfo)
    (before after : Option DMessage) : Option SimpleEditedMessageData :=
  match before, after with
  | some b, some aft =>
      match aft.author with
      | none => none
      | some a =>
          if a.bot then none
          else if userID == "" || a.id == userID then none
          else if b.content == aft.content then none
          else
            let base : SimpleEditedMessageData :=
              { messageID := aft.id
                userID := a.id
                username := a.username
                beforeContent := b.content
                afterContent := aft.content
                beforeAttachments := b.attachments
                afterAttachments := aft.attachments
                editedAt := now
                channelID := aft.channelID
                channelName := ""
                channelType := ""
                isGroup := false
                guildID := ""
                guildName := "" }
            some (match chInfo with
              | some ci =>
                  { base with
                    channelName := ci.name
                    channelType := ci.chanType
                    isGroup := ci.isGroup
                    guildID := ci.guildID
                    guildName := ci.guildName }
              | none => base)
  | _, _ => none

/-! ## Helper lemmas -/

theorem isEmpty_eq_false_of_ne_nil {α : Type} {l : List α} (h : l ≠ []) :
    l.isEmpty = false := by
  cases l with
  | nil => exact absurd rfl h
  | cons x xs => rfl

theorem filter_partition_length (errs : List WriteError) :
    nonDuplicates errs + duplicates errs = errs.length := by
  induction errs with
  | nil => rfl
  | cons w ws ih =>
      simp only [nonDuplicates, duplicates] at ih ⊢
      by_cases h : w.code = duplicateKeyCode
      · have hb : (w.code == duplicateKeyCode) = true := beq_iff_eq.mpr h
        simp [List.filter_cons, hb]
        omega
      · have hb : (w.code == duplicateKeyCode) = false := by simpa using h
        simp [List.filter_cons, hb]
        omega

theorem isDuplicateError_iff (errs : List WriteError) :
    isDuplicateError errs = true ↔ 0 < duplicates errs := by
  induction errs with
  | nil => simp [isDuplicateError, duplicates]
  | cons w ws ih =>
      simp only [isDuplicateError, duplicates] at ih ⊢
      by_cases h : w.code = duplicateKeyCode
      · have hb : (w.code == duplicateKeyCode) = true := beq_iff_eq.mpr h
        simp [List.filter_cons, hb, List.any_cons]
      · have hb : (w.code == duplicateKeyCode) = false := by simpa using h
        simp [List.filter_cons, hb, List.any_cons, ih]

theorem chanSend_length_le {α : Type} (cap : Nat) (q : List α) (msg : α)
    (h : q.length ≤ cap) : ((chanSend cap q msg).1).length ≤ cap := by
  by_cases hlt : q.length < cap <;> simp [chanSend, hlt] <;> omega

theorem applyQueueOp_length_le {α : Type} (cap : Nat) (q : List α) (op : QueueOp α)
    (h : q.length ≤ cap) : (applyQueueOp cap q op).length ≤ cap := by
  cases op with
  | enq r => exact chanSend_length_le cap q r h
  | deq =>
      simp only [applyQueueOp, List.length_tail]
      omega

theorem runQueueOps_length_le {α : Type} (cap : Nat) (ops : List (QueueOp α)) :
    ∀ q : List α, q.length ≤ cap → (runQueueOps cap ops q).length ≤ cap := by
  induction ops with
  | nil => intro q h; simpa [runQueueOps] using h
  | cons op rest ih =>
      intro q h
      simpa [runQueueOps, List.foldl_cons] using
        ih (applyQueueOp cap q op) (applyQueueOp_length_le cap q op h)

theorem ctxDone_stops {α : Type} (batchSize : Nat) (s : AccState α) :
    (processBatchStep batchSize AccEvent.ctxDone s).stopped = true := by
  by_cases hs : s.stopped
  · simp [processBatchStep, hs]
  · by_cases hb : s.batch.isEmpty <;>
      simp [processBatchStep, hs, hb]

/-! ## Claim theorems -/

/-- C1: for every batch accumulator, the in-memory batch is flushed at
every flush-interval tick whenever it is non-empty, and is flushed
immediately once its length reaches the configured batch-size threshold
(1000) — in the same loop iteration as the append, hence before any
further record is dequeued; consequently the batch never holds
`dbBatchSize` records at the start of an iteration. -/
theorem C1_flush_interval_and_size_threshold {α : Type} (s : AccState α)
    (hstop : s.stopped = false) :
    dbBatchSize = 1000
    ∧ (s.batch ≠ [] →
        processBatchStep dbBatchSize AccEvent.tick s
          = { s with batch := [], flushed := s.flushed ++ [s.batch] })
    ∧ (∀ (r : α) (rest : List α), s.queue = r :: rest →
        (s.batch ++ [r]).length = dbBatchSize →
        processBatchStep dbBatchSize AccEvent.recv s
          = { s with
                queue := rest
                batch := []
                flushed := s.flushed ++ [s.batch ++ [r]] })
    ∧ (∀ e : AccEvent, s.batch.length < dbBatchSize →
        (processBatchStep dbBatchSize e s).batch.length < dbBatchSize) := by
  refine ⟨rfl, ?_, ?_, ?_⟩
  · intro hne
    simp [processBatchStep, hstop, isEmpty_eq_false_of_ne_nil hne]
  · intro r rest hq hlen
    have hge : dbBatchSize ≤ s.batch.length + 1 := by
      simp only [List.length_append, List.length_cons, List.length_nil] at hlen
      omega
    simp [processBatchStep, hstop, hq, hge]
  · intro e hlt
    have hpos : 0 < dbBatchSize := by decide
    cases e with
    | ctxDone =>
        by_cases hb : s.batch.isEmpty <;> simp [processBatchStep, hstop, hb] <;> omega
    | tick =>
        by_cases hb : s.batch.isEmpty <;> simp [processBatchStep, hstop, hb] <;> omega
    | recv =>
        cases hq : s.queue with
        | nil => simpa [processBatchStep, hstop, hq] using hlt
        | cons r rest =>
            by_cases hge : dbBatchSize ≤ s.batch.length + 1 <;>
              simp [processBatchStep, hstop, hq, hge] <;> omega
    | pollTimeout => simpa [processBatchStep, hstop] using hlt

/-- Witness for C1 at a concrete state: one record in the batch, a tick
flushes it. -/
theorem C1_witness :
    processBatchStep dbBatchSize AccEvent.tick
        (AccState.mk [] [5] [] false : AccState Nat)
      = AccState.mk [] [] [[5]] false := by
  have h :=
    (C1_flush_interval_and_size_threshold (α := Nat)
      (AccState.mk [] [5] [] false) rfl).2.1 (by decide)
  simpa using h

/-- C2: for every flush hitting a bulk-write exception, the per-record
rejections are classified exactly by the duplicate-key code 11000 —
duplicates are not treated as an error (no error is logged when every
rejection is a duplicate), any non-duplicate rejection is counted as
failed and makes the error log fire — and no result ever hands records
back for a retry or re-enqueue. -/
theorem C2_duplicate_rejections_tolerated {α : Type} (batch : List α)
    (errs : List WriteError) (hne : batch ≠ []) :
    (flushBatch batch (InsertManyResult.bulkWriteException errs)).failedCount
        + (flushBatch batch (InsertManyResult.bulkWriteException errs)).duplicateCount
      = errs.length
    ∧ ((flushBatch batch (InsertManyResult.bulkWriteException errs)).errorLogged = true
        ↔ 0 < (flushBatch batch (InsertManyResult.bulkWriteException errs)).failedCount)
    ∧ (isDuplicateError errs = true
        ↔ 0 < (flushBatch batch (InsertManyResult.bulkWriteException errs)).duplicateCount)
    ∧ ((∀ w ∈ errs, w.code = duplicateKeyCode) →
        (flushBatch batch (InsertManyResult.bulkWriteException errs)).failedCount = 0
        ∧ (flushBatch batch (InsertManyResult.bulkWriteException errs)).errorLogged = false)
    ∧ (∀ w ∈ errs, w.code ≠ duplicateKeyCode →
        0 < (flushBatch batch (InsertManyResult.bulkWriteException errs)).failedCount)
    ∧ (∀ res : InsertManyResult, (flushBatch batch res).requeued = []) := by
  have hb : batch.isEmpty = false := isEmpty_eq_false_of_ne_nil hne
  refine ⟨?_, ?_, ?_, ?_, ?_, ?_⟩
  · simpa [flushBatch, hb] using filter_partition_length errs
  · simp [flushBatch, hb]
  · simpa [flushBatch, hb] using isDuplicateError_iff errs
  · intro hall
    have hzero : nonDuplicates errs = 0 := by
      simp only [nonDuplicates, List.length_eq_zero]
      refine List.filter_eq_nil_iff.mpr ?_
      intro w hw
      simp [hall w hw]
    simp [flushBatch, hb, hzero]
  · intro w hw hcode
    have hmem : w ∈ errs.filter (fun w => !(w.code == duplicateKeyCode)) :=
      List.mem_filter.mpr ⟨hw, by simp [hcode]⟩
    have hpos : 0 < nonDuplicates errs := by
      have := List.length_pos.mpr (List.ne_nil_of_mem hmem)
      simpa [nonDuplicates] using this
    simp [flushBatch, hb, hpos]
  · intro res
    cases res <;> simp [flushBatch, hb]

/-- Witness for C2 at a concrete batch with one duplicate rejection and
one other rejection. -/
theorem C2_witness :
    (flushBatch [10, 20]
        (InsertManyResult.bulkWriteException
          [WriteError.mk 0 11000, WriteError.mk 1 121])).failedCount
        + (flushBatch [10, 20]
            (InsertManyResult.bulkWriteException
              [WriteError.mk 0 11000, WriteError.mk 1 121])).duplicateCount
      = 2 :=
  (C2_duplicate_rejections_tolerated [10, 20]
    [WriteError.mk 0 11000, WriteError.mk 1 121] (by decide)).1

/-- C3: an enqueue through the non-blocking channel send always returns
immediately with one of the two outcomes — `droppedFull` exactly when the
bounded buffer is at capacity, leaving the queue unchanged, and `queued`
otherwise, appending the record. -/
theorem C3_enqueue_never_blocks {α : Type} (cap : Nat) (q : List α) (msg : α) :
    ((chanSend cap q msg).2 = EnqueueOutcome.droppedFull ↔ cap ≤ q.length)
    ∧ ((chanSend cap q msg).2 = EnqueueOutcome.queued ↔ q.length < cap)
    ∧ ((chanSend cap q msg).2 = EnqueueOutcome.droppedFull → (chanSend cap q msg).1 = q)
    ∧ ((chanSend cap q msg).2 = EnqueueOutcome.queued → (chanSend cap q msg).1 = q ++ [msg]) := by
  by_cases hlt : q.length < cap <;> simp [chanSend, hlt] <;> omega

/-- Witness for C3: a full one-slot queue drops the record and is left
unchanged. -/
theorem C3_witness :
    (chanSend 1 [0] (7 : Nat)).1 = [0] :=
  (C3_enqueue_never_blocks 1 [0] 7).2.2.1 (by decide)

/-- C4: for every event kind the queue occupancy, starting empty, never
exceeds the kind's fixed capacity under any sequence of enqueues and
dequeues; an enqueue on a full queue is rejected and leaves the queue
unchanged; and the capacities are message 2000, deleted 1000, edited 1000,
mention 500. -/
theorem C4_queue_occupancy_bounded {α : Type} (k : Kind) (ops : List (QueueOp α)) :
    (runQueueOps (kindCapacity k) ops []).length ≤ kindCapacity k
    ∧ (∀ (q : List α) (r : α), kindCapacity k ≤ q.length →
        chanSend (kindCapacity k) q r = (q, EnqueueOutcome.droppedFull))
    ∧ kindCapacity Kind.message = 2000
    ∧ kindCapacity Kind.deleted = 1000
    ∧ kindCapacity Kind.edited = 1000
    ∧ kindCapacity Kind.mention = 500 := by
  refine ⟨runQueueOps_length_le (kindCapacity k) ops [] (by simp), ?_, rfl, rfl, rfl, rfl⟩
  intro q r hfull
  have hnot : ¬ q.length < kindCapacity k := by omega
  simp [chanSend, hnot]

/-- Witness for C4 on the mention queue: a short run stays within
capacity, and an enqueue on a full queue is dropped. -/
theorem C4_witness :
    (runQueueOps (kindCapacity Kind.mention) [QueueOp.enq 1, QueueOp.deq]
        ([] : List Nat)).length ≤ kindCapacity Kind.mention
    ∧ chanSend (kindCapacity Kind.mention) (List.replicate 500 (0 : Nat)) 9
        = (List.replicate 500 0, EnqueueOutcome.droppedFull) :=
  ⟨(C4_queue_occupancy_bounded Kind.mention [QueueOp.enq 1, QueueOp.deq]).1,
   (C4_queue_occupancy_bounded (α := Nat) Kind.mention []).2.1
     (List.replicate 500 0) 9 (by rw [List.length_replicate]; decide)⟩

/-- C5 counterexample: the claim says that on shutdown all pending records
(enqueued but not yet persisted) are persisted before resources are
released, absent store failures. Here one record sits in the queue
(enqueued, not yet dequeued into the batch) when cancellation is observed:
the `ctxDone` branch flushes only the in-memory batch (empty) and returns,
so the accumulator terminates with no flush call ever made and the record
still in the abandoned channel — it is never persisted. -/
theorem C5_counterexample :
    (processBatchStep dbBatchSize AccEvent.ctxDone
        (AccState.mk [7] [] [] false : AccState Nat)).stopped = true
    ∧ (processBatchStep dbBatchSize AccEvent.ctxDone
        (AccState.mk [7] [] [] false : AccState Nat)).flushed = []
    ∧ (processBatchStep dbBatchSize AccEvent.ctxDone
        (AccState.mk [7] [] [] false : AccState Nat)).queue = [7] := by
  decide

/-- C5 amended: on shutdown each accumulator flushes exactly its current
in-memory batch (once, when non-empty) and terminates; records still in
its queue — enqueued but not yet dequeued into a batch — are left there
and, since a stopped accumulator is a fixed point of every event, are
never flushed: they are dropped even with no store failures. Only records
already dequeued into batches are persisted on shutdown. -/
theorem C5_shutdown_drains_batch_not_queue {α : Type} (s : AccState α)
    (hstop : s.stopped = false) :
    (processBatchStep dbBatchSize AccEvent.ctxDone s).stopped = true
    ∧ (s.batch ≠ [] →
        (processBatchStep dbBatchSize AccEvent.ctxDone s).flushed
          = s.flushed ++ [s.batch])
    ∧ (s.batch = [] →
        (processBatchStep dbBatchSize AccEvent.ctxDone s).flushed = s.flushed)
    ∧ (processBatchStep dbBatchSize AccEvent.ctxDone s).queue = s.queue
    ∧ (∀ (e : AccEvent) (t : AccState α), t.stopped = true →
        processBatchStep dbBatchSize e t = t) := by
  refine ⟨ctxDone_stops dbBatchSize s, ?_, ?_, ?_, ?_⟩
  · intro hne
    simp [processBatchStep, hstop, isEmpty_eq_false_of_ne_nil hne]
  · intro hnil
    simp [processBatchStep, hstop, hnil]
  · by_cases hb : s.batch.isEmpty <;> simp [processBatchStep, hstop, hb]
  · intro e t ht
    simp [processBatchStep, ht]

/-- Witness for C5 amended: a non-empty batch is flushed on shutdown and
the queue is left as it was. -/
theorem C5_witness :
    (processBatchStep dbBatchSize AccEvent.ctxDone
        (AccState.mk [3] [4] [] false : AccState Nat)).flushed = [[4]]
    ∧ (processBatchStep dbBatchSize AccEvent.ctxDone
        (AccState.mk [3] [4] [] false : AccState Nat)).queue = [3] := by
  have h := C5_shutdown_drains_batch_not_queue (α := Nat)
    (AccState.mk [3] [4] [] false) rfl
  exact ⟨by simpa using h.2.1 (by decide), h.2.2.2.1⟩

/-- C6 counterexample: the claim says shutdown waits for the accumulators
for at most a given timeout and, should the timeout elapse, returns a
report marking the unconfirmed event kinds. The transcription of
`Close` shows its wait is the bare unconditional `wg.Wait()`: no bounded
wait of any duration occurs anywhere in its body, so there is no timeout
path and no report to return. -/
theorem C6_counterexample :
    closeActions.all (fun a => !isBoundedWait a) = true
    ∧ CloseAction.waitAllUnbounded ∈ closeActions
    ∧ CloseAction.cancelSignal ∈ closeActions := by
  decide

/-- C6 amended: `Close` signals cancellation and then waits without bound
— it takes no timeout and produces no report of unconfirmed kinds — until
all four accumulators have observed cancellation, flushed their in-memory
batches and stopped; it then closes the channels and releases the store
connection pool unconditionally. -/
theorem C6_close_unbounded_wait_then_release {α : Type} (d : DatabaseState α) :
    (Close d).poolOpen = false
    ∧ (Close d).cancelled = true
    ∧ (Close d).msgAcc.stopped = true
    ∧ (Close d).delAcc.stopped = true
    ∧ (Close d).editAcc.stopped = true
    ∧ (Close d).mentionAcc.stopped = true
    ∧ closeActions.all (fun a => !isBoundedWait a) = true :=
  ⟨rfl, rfl, ctxDone_stops dbBatchSize d.msgAcc, ctxDone_stops dbBatchSize d.delAcc,
   ctxDone_stops dbBatchSize d.editAcc, ctxDone_stops dbBatchSize d.mentionAcc,
   by decide⟩

/-- C7 counterexample: the claim says an accumulator suspends only while
blocked on its queue receive or its flush timer, never in a polling loop
with a short fixed timeout. At an idle state (empty queue, not stopped)
the transcribed loop has the 10 ms receive-timeout event enabled; it is a
distinct wake-up from the receive, the timer tick and cancellation, and it
leaves the state unchanged — the accumulator wakes every 10 ms with
nothing to do instead of staying blocked. -/
theorem C7_counterexample :
    enabled AccEvent.pollTimeout (AccState.mk [] [] [] false : AccState Nat) = true
    ∧ processBatchStep dbBatchSize AccEvent.pollTimeout
        (AccState.mk [] [] [] false : AccState Nat)
      = AccState.mk [] [] [] false
    ∧ AccEvent.pollTimeout ≠ AccEvent.recv
    ∧ AccEvent.pollTimeout ≠ AccEvent.tick
    ∧ AccEvent.pollTimeout ≠ AccEvent.ctxDone
    ∧ pollTimeoutMillis = 10 := by
  decide

/-- C7 amended: an accumulator whose queue is empty does not block until a
record or a timer tick arrives: the receive with a fixed 10 ms timeout
(`pollTimeoutMillis = 10`) is enabled, is a no-op on the state, and can
fire any number of consecutive times — a busy polling loop retried
indefinitely, exactly the pattern §9 of the specification flags in the
source. -/
theorem C7_poll_loop_with_short_timeout {α : Type} (s : AccState α)
    (hstop : s.stopped = false) (hq : s.queue = []) :
    enabled AccEvent.pollTimeout s = true
    ∧ (∀ n : Nat, (processBatchStep dbBatchSize AccEvent.pollTimeout)^[n] s = s)
    ∧ enabled AccEvent.recv s = false
    ∧ pollTimeoutMillis = 10 := by
  refine ⟨by simp [enabled, hstop, hq], ?_, by simp [enabled, hstop, hq], rfl⟩
  intro n
  have hfix : processBatchStep dbBatchSize AccEvent.pollTimeout s = s := by
    simp [processBatchStep, hstop]
  exact Function.iterate_fixed hfix n

/-- Witness for C7 amended: three consecutive 10 ms timeout wake-ups at a
concrete idle state leave it unchanged. -/
theorem C7_witness :
    (processBatchStep dbBatchSize AccEvent.pollTimeout)^[3]
        (AccState.mk [] [1] [] false : AccState Nat)
      = AccState.mk [] [1] [] false :=
  (C7_poll_loop_with_short_timeout (α := Nat)
    (AccState.mk [] [1] [] false) rfl rfl).2.1 3

theorem mem_insertByDesc (key : StoreDoc → Nat) (a x : StoreDoc) (l : List StoreDoc) :
    x ∈ insertByDesc key a l ↔ x = a ∨ x ∈ l := by
  induction l with
  | nil => simp [insertByDesc]
  | cons y ys ih =>
      by_cases hk : key y ≤ key a <;> simp [insertByDesc, hk, ih] <;> tauto

theorem pairwise_insertByDesc (key : StoreDoc → Nat) (a : StoreDoc) (l : List StoreDoc)
    (h : List.Pairwise (fun x y => key y ≤ key x) l) :
    List.Pairwise (fun x y => key y ≤ key x) (insertByDesc key a l) := by
  induction l with
  | nil => simp [insertByDesc]
  | cons y ys ih =>
      rcases List.pairwise_cons.mp h with ⟨hy, hys⟩
      by_cases hk : key y ≤ key a
      · simp only [insertByDesc, hk, if_true]
        refine List.pairwise_cons.mpr ⟨?_, h⟩
        intro z hz
        rcases List.mem_cons.mp hz with rfl | hz
        · exact hk
        · exact le_trans (hy z hz) hk
      · simp only [insertByDesc, hk, if_false]
        refine List.pairwise_cons.mpr ⟨?_, ih hys⟩
        intro z hz
        rcases (mem_insertByDesc key a z ys).mp hz with rfl | hz
        · omega
        · exact hy z hz

theorem mem_sortByDesc (key : StoreDoc → Nat) (x : StoreDoc) (l : List StoreDoc) :
    x ∈ sortByDesc key l ↔ x ∈ l := by
  induction l with
  | nil => simp [sortByDesc]
  | cons y ys ih => simp [sortByDesc, mem_insertByDesc, ih]

theorem pairwise_sortByDesc (key : StoreDoc → Nat) (l : List StoreDoc) :
    List.Pairwise (fun x y => key y ≤ key x) (sortByDesc key l) := by
  induction l with
  | nil => simp [sortByDesc]
  | cons y ys ih => exact pairwise_insertByDesc key y (sortByDesc key ys) ih

theorem findSortDescLimit_spec (key : StoreDoc → Nat) (f : Option QueryFilter)
    (limit : Nat) (coll : List StoreDoc) :
    (findSortDescLimit key f limit coll).length ≤ limit
    ∧ List.Pairwise (fun x y => key y ≤ key x) (findSortDescLimit key f limit coll)
    ∧ (∀ x ∈ findSortDescLimit key f limit coll,
        x ∈ coll ∧ matchesQuery f x = true) := by
  refine ⟨?_, ?_, ?_⟩
  · simpa [findSortDescLimit] using
      List.length_take_le limit (sortByDesc key (coll.filter (matchesQuery f)))
  · exact List.Pairwise.sublist (List.take_sublist limit _)
      (pairwise_sortByDesc key (coll.filter (matchesQuery f)))
  · intro x hx
    have hx2 : x ∈ sortByDesc key (coll.filter (matchesQuery f)) :=
      (List.take_sublist limit _).mem hx
    have hx3 : x ∈ coll.filter (matchesQuery f) :=
      (mem_sortByDesc key x _).mp hx2
    exact ⟨(List.mem_filter.mp hx3).1, (List.mem_filter.mp hx3).2⟩

/-- C8: each query method returns at most `limit` documents, in descending
order of its collection's timestamp field (`deleted_at` for deleted
messages, `edited_at` for edits, `created_at` for mentions), and every
returned document comes from the queried store collection (the flushed
documents) and matches the built query — nothing is read from queues or
in-memory batches. -/
theorem C8_query_sorted_desc_limited (f : Option QueryFilter) (limit : Nat)
    (coll : List StoreDoc) :
    ((GetDeletedMessages f limit coll).length ≤ limit
      ∧ List.Pairwise (fun x y => y.deleted_at ≤ x.deleted_at)
          (GetDeletedMessages f limit coll)
      ∧ (∀ x ∈ GetDeletedMessages f limit coll, x ∈ coll ∧ matchesQuery f x = true))
    ∧ ((GetEditedMessages f limit coll).length ≤ limit
      ∧ List.Pairwise (fun x y => y.edited_at ≤ x.edited_at)
          (GetEditedMessages f limit coll)
      ∧ (∀ x ∈ GetEditedMessages f limit coll, x ∈ coll ∧ matchesQuery f x = true))
    ∧ ((GetMentions f limit coll).length ≤ limit
      ∧ List.Pairwise (fun x y => y.created_at ≤ x.created_at)
          (GetMentions f limit coll)
      ∧ (∀ x ∈ GetMentions f limit coll, x ∈ coll ∧ matchesQuery f x = true)) :=
  ⟨findSortDescLimit_spec (fun d => d.deleted_at) f limit coll,
   findSortDescLimit_spec (fun d => d.edited_at) f limit coll,
   findSortDescLimit_spec (fun d => d.created_at) f limit coll⟩

/-- Concrete stored documents for the C8 witness. -/
def docA : StoreDoc :=
  { user_id := "u1"
    channel_id := "c1"
    guild_id := ""
    target_id := ""
    created_at := 1
    deleted_at := 5
    edited_at := 0 }

/-- Second concrete stored document for the C8 witness. -/
def docB : StoreDoc :=
  { user_id := "u2"
    channel_id := "c1"
    guild_id := ""
    target_id := ""
    created_at := 2
    deleted_at := 9
    edited_at := 0 }

/-- Witness for C8: on a concrete two-document collection the deleted
query respects the limit and returns only store documents. -/
theorem C8_witness :
    (GetDeletedMessages none 1 [docA, docB]).length ≤ 1
    ∧ (docB ∈ [docA, docB] ∧ matchesQuery none docB = true) :=
  ⟨(C8_query_sorted_desc_limited none 1 [docA, docB]).1.1,
   (C8_query_sorted_desc_limited none 1 [docA, docB]).1.2.2 docB (by decide)⟩

/-- A concrete deletion event authored by the producer's own account, for
the C9 counterexample. -/
def selfDeletionEvent : DMessage :=
  { id := "m1"
    author := some { id := "self-id", username := "me", bot := false }
    content := "hello"
    channelID := "ch1"
    attachments := []
    mentions := []
    replyToOwn := false }

/-- C9 counterexample: the claim says a deletion event authored by the
producer's own account is persisted as a DeletedMessage record with the
author id excluded but content, channel id and deleted-at still recorded.
On the code, `processDeletedMessage` returns at
`if userID == "" || m.Author.ID == userID` before building anything: no
record of any shape is created for the event, so in particular no record
with the author id excluded and the other fields recorded exists. -/
theorem C9_counterexample :
    ¬ ∃ rec : SimpleDeletedMessageData,
        processDeletedMessage "self-id" 42 none (some selfDeletionEvent) = some rec := by
  have hnone : processDeletedMessage "self-id" 42 none (some selfDeletionEvent) = none := by
    decide
  intro hex
  rcases hex with ⟨rec, hrec⟩
  rw [hnone] at hrec
  exact Option.noConfusion hrec

/-- C9 amended: for every deletion event whose author id equals the
producer's own account, no DeletedMessage record is created or persisted
at all — the event is skipped before any field (content snapshot, channel
id, deleted-at) is recorded. -/
theorem C9_self_deletions_skipped (userID : String) (now : Nat)
    (chInfo : Option SimpleChannelInfo) (m : DMessage) (a : DUser)
    (ha : m.author = some a) (hid : a.id = userID) :
    processDeletedMessage userID now chInfo (some m) = none := by
  by_cases hb : a.bot <;> simp [processDeletedMessage, ha, hb, hid]

/-- Witness for C9 amended at a concrete self-authored deletion. -/
theorem C9_witness :
    processDeletedMessage "u9" 3 none
        (some { id := "m2"
                author := some { id := "u9", username := "n", bot := false }
                content := "x"
                channelID := "c"
                attachments := []
                mentions := []
                replyToOwn := false }) = none :=
  C9_self_deletions_skipped "u9" 3 none _
    { id := "u9", username := "n", bot := false } rfl rfl

/-- C10: an incoming event (new message, deletion, or edit) whose author
is a bot account produces no record of any kind: `processMessage` stores
neither a message document nor a mention document, and
`processDeletedMessage` and `processEditedMessage` store nothing — each
returns at its `Author.Bot` check before anything reaches the store. -/
theorem C10_bot_authors_discarded (userID : String) (now : Nat)
    (chInfo : Option SimpleChannelInfo) (m mb : DMessage) (a : DUser)
    (ha : m.author = some a) (hbot : a.bot = true) :
    processMessage userID now chInfo m = (none, none)
    ∧ processDeletedMessage userID now chInfo (some m) = none
    ∧ processEditedMessage userID now chInfo (some mb) (some m) = none := by
  refine ⟨?_, ?_, ?_⟩
  · simp [processMessage, ha, hbot]
  · simp [processDeletedMessage, ha, hbot]
  · simp [processEditedMessage, ha, hbot]

/-- Witness for C10 at a concrete bot-authored event. -/
theorem C10_witness :
    processMessage "u1" 7 none
        { id := "m3"
          author := some { id := "b1", username := "bot", bot := true }
          content := "spam"
          channelID := "c2"
          attachments := []
          mentions := ["u1"]
          replyToOwn := false } = (none, none) :=
  (C10_bot_authors_discarded "u1" 7 none _
    { id := "m3"
      author := some { id := "b1", username := "bot", bot := true }
      content := "spam"
      channelID := "c2"
      attachments := []
      mentions := ["u1"]
      replyToOwn := false }
    { id := "b1", username := "bot", bot := true } rfl rfl).1

end Selfbot
